import Mathlib

/-!
Verification development for the backend_api repository: a REST scaffold with
two in-memory CRUD registries (users and entities) and a stateless health
endpoint.  The registries live in
`src/backend_api/src/api/routers/users.py` and
`src/backend_api/src/api/routers/entities.py`.

Modelling choices (shallow embedding of the Python source):
* A Python dict keyed by int id, iterated in insertion order, is modelled as a
  `List` of records carrying their id, together with a `nextId : Nat` counter
  (the module-level `_NEXT_ID` / `_ENTITIES_NEXT_ID`, initialised to 1).
* Dict assignment `d[k] = v` keeps the position of an existing key and appends
  a fresh key at the end (`dictInsertUser` / `dictInsertEntity`); `del d[k]`
  is `List.filter`; in-place mutation of the record retrieved by `d.get(k)`
  is a map that replaces the record(s) with that id.
* Request validation performed by pydantic before a handler runs (password
  `min_length=6`, entity-create name `min_length=1`) is checked first by the
  corresponding operation, which fails with `ApiError.validationError`
  exactly when pydantic would answer 422.  `EmailStr` syntactic validation is
  orthogonal to every claim and is not modelled.
* Python `str.lower()` is `strLower` (characterwise `Char.toLower`; on the
  ASCII emails the source compares, the two agree).
* Entity metadata is a Python dict of string keys to arbitrary values; it is
  modelled as `List (String × V)` for an arbitrary value type `V`, since the
  source never inspects the values.  `payload.metadata or {}` coalesces both
  `None` and the empty (falsy) dict to `{}` (`metaOrEmpty`).
* Each handler is a pure function from the registry state and the request to
  `Except ApiError (result × new state)`; `raise HTTPException` before any
  mutation corresponds to `.error` (409 = `conflict`, 404 = `notFound`).
-/

/-- Error taxonomy of the API: pydantic 422, duplicate-email 409, missing-id
404 (spec section 7). -/
inductive ApiError where
  | validationError
  | conflict
  | notFound
deriving DecidableEq, Repr

/-- A stored user record: the value `_IN_MEMORY_USERS[id]`, a dict with keys
id, email, full_name, password (users.py, create_user). -/
structure UserRec where
  id : Nat
  email : String
  full_name : Option String
  password : String
deriving DecidableEq, Repr

/-- The whole user-registry state: the `_IN_MEMORY_USERS` dict in insertion
order plus the `_NEXT_ID` counter (users.py, module level). -/
structure UsersState where
  users : List UserRec
  nextId : Nat
deriving DecidableEq, Repr

/-- Startup state of the user registry: empty store, counter 1. -/
def initUsers : UsersState := ⟨[], 1⟩

/-- The `User` response model (users.py): id, email, full_name — no password
field exists in this type. -/
structure UserView where
  id : Nat
  email : String
  full_name : Option String
deriving DecidableEq, Repr

/-- Public view of a stored record: `User(id=u["id"], email=u["email"],
full_name=u.get("full_name"))`. -/
def userView (u : UserRec) : UserView := ⟨u.id, u.email, u.full_name⟩

/-- The `UserCreate` request body (users.py). -/
structure UserCreate where
  email : String
  full_name : Option String
  password : String
deriving DecidableEq, Repr

/-- The `UserUpdate` request body (users.py): both fields optional. -/
structure UserUpdate where
  full_name : Option String
  password : Option String
deriving DecidableEq, Repr

/-- Pydantic validation of `UserCreate`: `password: str = Field(...,
min_length=6)`. -/
def validUserCreate (p : UserCreate) : Bool := 6 ≤ p.password.length

/-- Pydantic validation of `UserUpdate`: `password: Optional[str] =
Field(None, min_length=6)` — absent passes, present must have length ≥ 6
(so the empty string is rejected). -/
def validUserUpdate (p : UserUpdate) : Bool :=
  match p.password with
  | none => true
  | some pw => 6 ≤ pw.length

/-- Python `str.lower()` on the ASCII emails the source compares: lowercase
every character. -/
def strLower (s : String) : String := ⟨s.data.map Char.toLower⟩

/-- The duplicate-email scan in `create_user`: any stored record whose
lowercased email equals the lowercased payload email. -/
def emailTaken (users : List UserRec) (email : String) : Bool :=
  users.any (fun u => strLower u.email == strLower email)

/-- Python dict assignment `_IN_MEMORY_USERS[k] = r`: overwrite in place when
the key exists, else append in insertion order. -/
def dictInsertUser (l : List UserRec) (r : UserRec) : List UserRec :=
  if l.any (fun u => u.id == r.id) then l.map (fun u => if u.id == r.id then r else u)
  else l ++ [r]

/-- `create_user` (users.py): 422 on invalid payload, 409 when the email is
taken (before the counter is touched), else allocate `_get_next_id()`,
store, and return the public view. -/
def create_user (s : UsersState) (p : UserCreate) :
    Except ApiError (UserView × UsersState) :=
  if validUserCreate p then
    if emailTaken s.users p.email then .error .conflict
    else
      let r : UserRec := ⟨s.nextId, p.email, p.full_name, p.password⟩
      .ok (⟨s.nextId, p.email, p.full_name⟩, ⟨dictInsertUser s.users r, s.nextId + 1⟩)
  else .error .validationError

/-- `list_users` (users.py): public views of all stored records in insertion
order. -/
def list_users (s : UsersState) : List UserView := s.users.map userView

/-- `get_user` (users.py): 404 when the id is absent, else the public view. -/
def get_user (s : UsersState) (i : Nat) : Except ApiError UserView :=
  match s.users.find? (fun u => u.id == i) with
  | none => .error .notFound
  | some u => .ok (userView u)

/-- The field mutations of `update_user`: each field provided (not None)
overwrites the stored value; id and email are never touched. -/
def applyUserUpdate (u : UserRec) (p : UserUpdate) : UserRec :=
  { id := u.id
    email := u.email
    full_name := match p.full_name with | some x => some x | none => u.full_name
    password := match p.password with | some x => x | none => u.password }

/-- `update_user` (users.py): 422 on invalid payload (pydantic runs before
the handler), 404 when the id is absent, else mutate the stored record in
place and return its public view. -/
def update_user (s : UsersState) (i : Nat) (p : UserUpdate) :
    Except ApiError (UserView × UsersState) :=
  if validUserUpdate p then
    match s.users.find? (fun u => u.id == i) with
    | none => .error .notFound
    | some u =>
      let u2 := applyUserUpdate u p
      .ok (userView u2, ⟨s.users.map (fun v => if v.id == i then u2 else v), s.nextId⟩)
  else .error .validationError

/-- `delete_user` (users.py): 404 when the id is absent, else remove the
record (other records keep their order, the counter is untouched). -/
def delete_user (s : UsersState) (i : Nat) : Except ApiError UsersState :=
  if s.users.any (fun u => u.id == i) then
    .ok ⟨s.users.filter (fun u => u.id != i), s.nextId⟩
  else .error .notFound

/-- A state-changing request against the user registry (GET handlers do not
change state). -/
inductive UserOp where
  | create (p : UserCreate)
  | update (i : Nat) (p : UserUpdate)
  | delete (i : Nat)
deriving DecidableEq, Repr

/-- One request against the user registry: the state afterwards, and the list
of identifiers issued by it (a successful create issues one). A failed
request leaves the state unchanged, as every `raise` in the source happens
before any mutation. -/
def userStep (s : UsersState) : UserOp → UsersState × List Nat
  | .create p =>
    match create_user s p with
    | .ok r => (r.2, [r.1.id])
    | .error _ => (s, [])
  | .update i p =>
    match update_user s i p with
    | .ok r => (r.2, [])
    | .error _ => (s, [])
  | .delete i =>
    match delete_user s i with
    | .ok s2 => (s2, [])
    | .error _ => (s, [])

/-- State after one request (errors leave the state unchanged). -/
def applyUserOp (s : UsersState) (op : UserOp) : UsersState := (userStep s op).1

/-- Fold step accumulating the state and all identifiers issued so far. -/
def userTraceStep (acc : UsersState × List Nat) (op : UserOp) : UsersState × List Nat :=
  ((userStep acc.1 op).1, acc.2 ++ (userStep acc.1 op).2)

/-- Run a request trace from process startup, collecting issued ids. -/
def runUserTrace (ops : List UserOp) : UsersState × List Nat :=
  ops.foldl userTraceStep (initUsers, [])

/-- Identifiers issued by the successful creates of a trace, in order. -/
def userIssued (ops : List UserOp) : List Nat := (runUserTrace ops).2

/-- User-registry state after a request trace from process startup. -/
def runUserOps (ops : List UserOp) : UsersState := (runUserTrace ops).1

/-- A stored entity record: the value `_ENTITIES[id]` (entities.py,
create_entity), with metadata a dict of string keys to arbitrary values of
some type `V`. -/
structure EntityRec (V : Type) where
  id : Nat
  name : String
  description : Option String
  metadata : List (String × V)
deriving DecidableEq, Repr

/-- The whole entity-registry state: the `_ENTITIES` dict in insertion order
plus the `_ENTITIES_NEXT_ID` counter (entities.py, module level). -/
structure EntitiesState (V : Type) where
  entities : List (EntityRec V)
  nextId : Nat
deriving DecidableEq, Repr

/-- Startup state of the entity registry: empty store, counter 1. -/
def initEntities (V : Type) : EntitiesState V := ⟨[], 1⟩

/-- The `EntityCreate` request body (entities.py): name required, metadata
optional (pydantic default is the empty dict, an explicit null stays None
until the handler coalesces it). -/
structure EntityCreate (V : Type) where
  name : String
  description : Option String
  metadata : Option (List (String × V))
deriving DecidableEq, Repr

/-- The `EntityUpdate` request body (entities.py): all three fields optional.
Note the source puts no min_length constraint on the update name. -/
structure EntityUpdate (V : Type) where
  name : Option String
  description : Option String
  metadata : Option (List (String × V))
deriving DecidableEq, Repr

/-- Pydantic validation of `EntityCreate`: `name: str = Field(...,
min_length=1)` (from EntityBase). -/
def validEntityCreate {V : Type} (p : EntityCreate V) : Bool := 1 ≤ p.name.length

/-- The handler expression `payload.metadata or {}`: both `None` and the
empty dict are falsy in Python, so both coalesce to the empty dict. -/
def metaOrEmpty {V : Type} (m : Option (List (String × V))) : List (String × V) :=
  match m with
  | none => []
  | some kvs => if kvs.isEmpty then [] else kvs

/-- Python dict assignment `_ENTITIES[k] = r`: overwrite in place when the
key exists, else append in insertion order. -/
def dictInsertEntity {V : Type} (l : List (EntityRec V)) (r : EntityRec V) :
    List (EntityRec V) :=
  if l.any (fun e => e.id == r.id) then l.map (fun e => if e.id == r.id then r else e)
  else l ++ [r]

/-- `create_entity` (entities.py): 422 on invalid payload, else allocate
`_entity_next_id()`, store with metadata coalesced, and return the full
record (`Entity(**_ENTITIES[eid])`). -/
def create_entity {V : Type} (s : EntitiesState V) (p : EntityCreate V) :
    Except ApiError (EntityRec V × EntitiesState V) :=
  if validEntityCreate p then
    let r : EntityRec V := ⟨s.nextId, p.name, p.description, metaOrEmpty p.metadata⟩
    .ok (r, ⟨dictInsertEntity s.entities r, s.nextId + 1⟩)
  else .error .validationError

/-- `list_entities` (entities.py): all records in insertion order (the
`Entity` response carries every stored field). -/
def list_entities {V : Type} (s : EntitiesState V) : List (EntityRec V) := s.entities

/-- `get_entity` (entities.py): 404 when the id is absent, else the record. -/
def get_entity {V : Type} (s : EntitiesState V) (i : Nat) :
    Except ApiError (EntityRec V) :=
  match s.entities.find? (fun e => e.id == i) with
  | none => .error .notFound
  | some e => .ok e

/-- The field mutations of `update_entity`: each field provided (not None)
fully replaces the stored value — in particular metadata is replaced
wholesale, never merged; the id is never touched. -/
def applyEntityUpdate {V : Type} (e : EntityRec V) (p : EntityUpdate V) : EntityRec V :=
  { id := e.id
    name := match p.name with | some x => x | none => e.name
    description := match p.description with | some x => some x | none => e.description
    metadata := match p.metadata with | some x => x | none => e.metadata }

/-- `update_entity` (entities.py): 404 when the id is absent, else mutate the
stored record in place and return it.  The payload carries no validation
constraint, so no 422 branch exists here; the handler's final
`Entity(**e)` re-validation is a framework wrapper outside the registry
operation (it fails at serialisation time when the mutated name is empty,
after the store has already been mutated). -/
def update_entity {V : Type} (s : EntitiesState V) (i : Nat) (p : EntityUpdate V) :
    Except ApiError (EntityRec V × EntitiesState V) :=
  match s.entities.find? (fun e => e.id == i) with
  | none => .error .notFound
  | some e =>
    let e2 := applyEntityUpdate e p
    .ok (e2, ⟨s.entities.map (fun v => if v.id == i then e2 else v), s.nextId⟩)

/-- `delete_entity` (entities.py): 404 when the id is absent, else remove the
record (other records keep their order, the counter is untouched). -/
def delete_entity {V : Type} (s : EntitiesState V) (i : Nat) :
    Except ApiError (EntitiesState V) :=
  if s.entities.any (fun e => e.id == i) then
    .ok ⟨s.entities.filter (fun e => e.id != i), s.nextId⟩
  else .error .notFound

/-- A state-changing request against the entity registry. -/
inductive EntityOp (V : Type) where
  | create (p : EntityCreate V)
  | update (i : Nat) (p : EntityUpdate V)
  | delete (i : Nat)
deriving DecidableEq, Repr

/-- One request against the entity registry: the state afterwards and the
identifiers issued by it. -/
def entityStep {V : Type} (s : EntitiesState V) : EntityOp V → EntitiesState V × List Nat
  | .create p =>
    match create_entity s p with
    | .ok r => (r.2, [r.1.id])
    | .error _ => (s, [])
  | .update i p =>
    match update_entity s i p with
    | .ok r => (r.2, [])
    | .error _ => (s, [])
  | .delete i =>
    match delete_entity s i with
    | .ok s2 => (s2, [])
    | .error _ => (s, [])

/-- State after one entity request (errors leave the state unchanged). -/
def applyEntityOp {V : Type} (s : EntitiesState V) (op : EntityOp V) : EntitiesState V :=
  (entityStep s op).1

/-- Fold step accumulating the entity state and all identifiers issued. -/
def entityTraceStep {V : Type} (acc : EntitiesState V × List Nat) (op : EntityOp V) :
    EntitiesState V × List Nat :=
  ((entityStep acc.1 op).1, acc.2 ++ (entityStep acc.1 op).2)

/-- Run an entity request trace from process startup. -/
def runEntityTrace {V : Type} (ops : List (EntityOp V)) : EntitiesState V × List Nat :=
  ops.foldl entityTraceStep (initEntities V, [])

/-- Identifiers issued by the successful entity creates of a trace. -/
def entityIssued {V : Type} (ops : List (EntityOp V)) : List Nat := (runEntityTrace ops).2

/-- Entity-registry state after a request trace from process startup. -/
def runEntityOps {V : Type} (ops : List (EntityOp V)) : EntitiesState V := (runEntityTrace ops).1

/-- Every record in the store after a dict assignment is the inserted record
or an old one. -/
theorem mem_dictInsertUser {l : List UserRec} {r w : UserRec}
    (h : w ∈ dictInsertUser l r) : w = r ∨ w ∈ l := by
  unfold dictInsertUser at h
  split at h
  · rcases List.mem_map.mp h with ⟨v, hv, hw⟩
    by_cases hc : (v.id == r.id) = true
    · left; simp [hc] at hw; exact hw.symm
    · right; simp [hc] at hw; exact hw ▸ hv
  · rcases List.mem_append.mp h with hw | hw
    · exact Or.inr hw
    · simp at hw; exact Or.inl hw

/-- Successful `create_user` pins down the returned view and the new state. -/
theorem create_user_ok_elim {s : UsersState} {p : UserCreate} {v : UserView}
    {s2 : UsersState} (h : create_user s p = .ok (v, s2)) :
    v = ⟨s.nextId, p.email, p.full_name⟩ ∧
      s2 = ⟨dictInsertUser s.users ⟨s.nextId, p.email, p.full_name, p.password⟩,
        s.nextId + 1⟩ := by
  unfold create_user at h
  split at h
  · split at h
    · exact absurd h (by simp)
    · simp only [Except.ok.injEq, Prod.mk.injEq] at h
      exact ⟨h.1.symm, h.2.symm⟩
  · exact absurd h (by simp)

/-- Successful `update_user` pins down the found record, the returned view
and the new state. -/
theorem update_user_ok_elim {s : UsersState} {i : Nat} {p : UserUpdate}
    {v : UserView} {s2 : UsersState} (h : update_user s i p = .ok (v, s2)) :
    ∃ u, s.users.find? (fun w => w.id == i) = some u ∧
      v = userView (applyUserUpdate u p) ∧
      s2 = ⟨s.users.map (fun w => if w.id == i then applyUserUpdate u p else w),
        s.nextId⟩ := by
  unfold update_user at h
  split at h
  · split at h
    · exact absurd h (by simp)
    · rename_i u hu
      simp only [Except.ok.injEq, Prod.mk.injEq] at h
      exact ⟨u, hu, h.1.symm, h.2.symm⟩
  · exact absurd h (by simp)

/-- Successful `delete_user` pins down the new state. -/
theorem delete_user_ok_elim {s : UsersState} {i : Nat} {s2 : UsersState}
    (h : delete_user s i = .ok s2) :
    s.users.any (fun u => u.id == i) = true ∧
      s2 = ⟨s.users.filter (fun u => u.id != i), s.nextId⟩ := by
  unfold delete_user at h
  split at h
  · rename_i hany
    simp only [Except.ok.injEq] at h
    exact ⟨hany, h.symm⟩
  · exact absurd h (by simp)

/-- Registry invariant carried along a trace: every stored id and every
issued id is below the counter, and the issued ids are strictly
increasing. -/
def UsersInv (s : UsersState) (issued : List Nat) : Prop :=
  (∀ u ∈ s.users, u.id < s.nextId) ∧ (∀ n ∈ issued, n < s.nextId) ∧
    issued.Pairwise (· < ·)

/-- The startup state satisfies the registry invariant. -/
theorem usersInv_init : UsersInv initUsers [] := by
  refine ⟨?_, ?_, List.Pairwise.nil⟩ <;> simp [initUsers]

/-- One request preserves the registry invariant, extending the issued list
with the identifiers it issued. -/
theorem usersInv_step {s : UsersState} {issued : List Nat} (op : UserOp)
    (h : UsersInv s issued) :
    UsersInv (userStep s op).1 (issued ++ (userStep s op).2) := by
  obtain ⟨hA, hB, hC⟩ := h
  cases op with
  | create p =>
    cases hc : create_user s p with
    | error e => simpa [userStep, hc] using ⟨hA, hB, hC⟩
    | ok r =>
      obtain ⟨v, s2⟩ := r
      obtain ⟨hv, hs2⟩ := create_user_ok_elim hc
      subst hv hs2
      simp only [userStep, hc]
      refine ⟨?_, ?_, ?_⟩
      · intro w hw
        rcases mem_dictInsertUser hw with hw | hw
        · subst hw; exact Nat.lt_succ_self _
        · exact Nat.lt_succ_of_lt (hA w hw)
      · intro n hn
        rcases List.mem_append.mp hn with hn | hn
        · exact Nat.lt_succ_of_lt (hB n hn)
        · simp at hn; subst hn; exact Nat.lt_succ_self _
      · refine List.pairwise_append.mpr ⟨hC, List.pairwise_singleton _ _, ?_⟩
        intro a ha b hb
        simp at hb; subst hb
        exact hB a ha
  | update i p =>
    cases hc : update_user s i p with
    | error e => simpa [userStep, hc] using ⟨hA, hB, hC⟩
    | ok r =>
      obtain ⟨v, s2⟩ := r
      obtain ⟨u, hu, hv, hs2⟩ := update_user_ok_elim hc
      subst hv hs2
      simp only [userStep, hc, List.append_nil]
      refine ⟨?_, hB, hC⟩
      intro w hw
      rcases List.mem_map.mp hw with ⟨x, hx, hxw⟩
      by_cases hxi : (x.id == i) = true
      · subst hxw
        simp only [hxi, if_true]
        exact hA u (List.mem_of_find?_eq_some hu)
      · subst hxw
        simp only [hxi, if_false]
        exact hA x hx
  | delete i =>
    cases hc : delete_user s i with
    | error e => simpa [userStep, hc] using ⟨hA, hB, hC⟩
    | ok s2 =>
      obtain ⟨hany, hs2⟩ := delete_user_ok_elim hc
      subst hs2
      simp only [userStep, hc, List.append_nil]
      refine ⟨?_, hB, hC⟩
      intro w hw
      exact hA w (List.mem_filter.mp hw).1

/-- The registry invariant holds after folding any trace from an invariant
accumulator. -/
theorem usersInv_fold (ops : List UserOp) (acc : UsersState × List Nat)
    (h : UsersInv acc.1 acc.2) :
    UsersInv (List.foldl userTraceStep acc ops).1
      (List.foldl userTraceStep acc ops).2 := by
  induction ops generalizing acc with
  | nil => exact h
  | cons op rest ih =>
    exact ih (userTraceStep acc op) (usersInv_step op h)

/-- The registry invariant holds along every trace from startup. -/
theorem usersInv_run (ops : List UserOp) :
    UsersInv (runUserOps ops) (userIssued ops) :=
  usersInv_fold ops (initUsers, []) usersInv_init

/-- An identifier below the counter and absent from the store. -/
def userAbsent (i : Nat) (s : UsersState) : Prop :=
  i < s.nextId ∧ ∀ u ∈ s.users, u.id ≠ i

/-- Absence below the counter is preserved by every request: creates
allocate fresh ids at the counter, updates preserve ids, deletes only
remove. -/
theorem userAbsent_step {i : Nat} {s : UsersState} (op : UserOp)
    (h : userAbsent i s) : userAbsent i (userStep s op).1 := by
  obtain ⟨hlt, habs⟩ := h
  cases op with
  | create p =>
    cases hc : create_user s p with
    | error e => exact ⟨by simpa [userStep, hc] using hlt, by simpa [userStep, hc] using habs⟩
    | ok r =>
      obtain ⟨v, s2⟩ := r
      obtain ⟨hv, hs2⟩ := create_user_ok_elim hc
      subst hs2
      refine ⟨by simpa [userStep, hc] using Nat.lt_succ_of_lt hlt, ?_⟩
      simp only [userStep, hc]
      intro w hw
      rcases mem_dictInsertUser hw with hw | hw
      · subst hw; exact fun he => absurd he.symm (Nat.ne_of_lt hlt)
      · exact habs w hw
  | update j p =>
    cases hc : update_user s j p with
    | error e => exact ⟨by simpa [userStep, hc] using hlt, by simpa [userStep, hc] using habs⟩
    | ok r =>
      obtain ⟨v, s2⟩ := r
      obtain ⟨u, hu, hv, hs2⟩ := update_user_ok_elim hc
      subst hs2
      refine ⟨by simpa [userStep, hc] using hlt, ?_⟩
      simp only [userStep, hc]
      intro w hw
      rcases List.mem_map.mp hw with ⟨x, hx, hxw⟩
      by_cases hxi : (x.id == j) = true
      · subst hxw
        simp only [hxi, if_true]
        exact habs u (List.mem_of_find?_eq_some hu)
      · subst hxw
        simp only [hxi, if_false]
        exact habs x hx
  | delete j =>
    cases hc : delete_user s j with
    | error e => exact ⟨by simpa [userStep, hc] using hlt, by simpa [userStep, hc] using habs⟩
    | ok s2 =>
      obtain ⟨hany, hs2⟩ := delete_user_ok_elim hc
      subst hs2
      refine ⟨by simpa [userStep, hc] using hlt, ?_⟩
      simp only [userStep, hc]
      intro w hw
      exact habs w (List.mem_filter.mp hw).1

/-- Absence below the counter is preserved by folding any trace. -/
theorem userAbsent_fold {i : Nat} (ops : List UserOp) (acc : UsersState × List Nat)
    (h : userAbsent i acc.1) :
    userAbsent i (List.foldl userTraceStep acc ops).1 := by
  induction ops generalizing acc with
  | nil => exact h
  | cons op rest ih =>
    exact ih (userTraceStep acc op) (userAbsent_step op h)

/-- Every record in the entity store after a dict assignment is the inserted
record or an old one. -/
theorem mem_dictInsertEntity {V : Type} {l : List (EntityRec V)} {r w : EntityRec V}
    (h : w ∈ dictInsertEntity l r) : w = r ∨ w ∈ l := by
  unfold dictInsertEntity at h
  split at h
  · rcases List.mem_map.mp h with ⟨v, hv, hw⟩
    by_cases hc : (v.id == r.id) = true
    · left; simp [hc] at hw; exact hw.symm
    · right; simp [hc] at hw; exact hw ▸ hv
  · rcases List.mem_append.mp h with hw | hw
    · exact Or.inr hw
    · simp at hw; exact Or.inl hw

/-- Successful `create_entity` pins down the returned record and the new
state. -/
theorem create_entity_ok_elim {V : Type} {s : EntitiesState V} {p : EntityCreate V}
    {r : EntityRec V} {s2 : EntitiesState V} (h : create_entity s p = .ok (r, s2)) :
    r = ⟨s.nextId, p.name, p.description, metaOrEmpty p.metadata⟩ ∧
      s2 = ⟨dictInsertEntity s.entities
        ⟨s.nextId, p.name, p.description, metaOrEmpty p.metadata⟩, s.nextId + 1⟩ := by
  unfold create_entity at h
  split at h
  · simp only [Except.ok.injEq, Prod.mk.injEq] at h
    exact ⟨h.1.symm, h.2.symm⟩
  · exact absurd h (by simp)

/-- Successful `update_entity` pins down the found record, the returned
record and the new state. -/
theorem update_entity_ok_elim {V : Type} {s : EntitiesState V} {i : Nat}
    {p : EntityUpdate V} {r : EntityRec V} {s2 : EntitiesState V}
    (h : update_entity s i p = .ok (r, s2)) :
    ∃ e, s.entities.find? (fun w => w.id == i) = some e ∧
      r = applyEntityUpdate e p ∧
      s2 = ⟨s.entities.map (fun w => if w.id == i then applyEntityUpdate e p else w),
        s.nextId⟩ := by
  unfold update_entity at h
  split at h
  · exact absurd h (by simp)
  · rename_i e he
    simp only [Except.ok.injEq, Prod.mk.injEq] at h
    exact ⟨e, he, h.1.symm, h.2.symm⟩

/-- Successful `delete_entity` pins down the new state. -/
theorem delete_entity_ok_elim {V : Type} {s : EntitiesState V} {i : Nat}
    {s2 : EntitiesState V} (h : delete_entity s i = .ok s2) :
    s.entities.any (fun e => e.id == i) = true ∧
      s2 = ⟨s.entities.filter (fun e => e.id != i), s.nextId⟩ := by
  unfold delete_entity at h
  split at h
  · rename_i hany
    simp only [Except.ok.injEq] at h
    exact ⟨hany, h.symm⟩
  · exact absurd h (by simp)

/-- Entity-registry invariant carried along a trace. -/
def EntitiesInv {V : Type} (s : EntitiesState V) (issued : List Nat) : Prop :=
  (∀ e ∈ s.entities, e.id < s.nextId) ∧ (∀ n ∈ issued, n < s.nextId) ∧
    issued.Pairwise (· < ·)

/-- The startup entity state satisfies the registry invariant. -/
theorem entitiesInv_init (V : Type) : EntitiesInv (initEntities V) [] := by
  refine ⟨?_, ?_, List.Pairwise.nil⟩ <;> simp [initEntities]

/-- One entity request preserves the registry invariant. -/
theorem entitiesInv_step {V : Type} {s : EntitiesState V} {issued : List Nat}
    (op : EntityOp V) (h : EntitiesInv s issued) :
    EntitiesInv (entityStep s op).1 (issued ++ (entityStep s op).2) := by
  obtain ⟨hA, hB, hC⟩ := h
  cases op with
  | create p =>
    cases hc : create_entity s p with
    | error e => simpa [entityStep, hc] using ⟨hA, hB, hC⟩
    | ok r =>
      obtain ⟨v, s2⟩ := r
      obtain ⟨hv, hs2⟩ := create_entity_ok_elim hc
      subst hv hs2
      simp only [entityStep, hc]
      refine ⟨?_, ?_, ?_⟩
      · intro w hw
        rcases mem_dictInsertEntity hw with hw | hw
        · subst hw; exact Nat.lt_succ_self _
        · exact Nat.lt_succ_of_lt (hA w hw)
      · intro n hn
        rcases List.mem_append.mp hn with hn | hn
        · exact Nat.lt_succ_of_lt (hB n hn)
        · simp at hn; subst hn; exact Nat.lt_succ_self _
      · refine List.pairwise_append.mpr ⟨hC, List.pairwise_singleton _ _, ?_⟩
        intro a ha b hb
        simp at hb; subst hb
        exact hB a ha
  | update i p =>
    cases hc : update_entity s i p with
    | error e => simpa [entityStep, hc] using ⟨hA, hB, hC⟩
    | ok r =>
      obtain ⟨v, s2⟩ := r
      obtain ⟨e, he, hv, hs2⟩ := update_entity_ok_elim hc
      subst hv hs2
      simp only [entityStep, hc, List.append_nil]
      refine ⟨?_, hB, hC⟩
      intro w hw
      rcases List.mem_map.mp hw with ⟨x, hx, hxw⟩
      by_cases hxi : (x.id == i) = true
      · subst hxw
        simp only [hxi, if_true]
        exact hA e (List.mem_of_find?_eq_some he)
      · subst hxw
        simp only [hxi, if_false]
        exact hA x hx
  | delete i =>
    cases hc : delete_entity s i with
    | error e => simpa [entityStep, hc] using ⟨hA, hB, hC⟩
    | ok s2 =>
      obtain ⟨hany, hs2⟩ := delete_entity_ok_elim hc
      subst hs2
      simp only [entityStep, hc, List.append_nil]
      refine ⟨?_, hB, hC⟩
      intro w hw
      exact hA w (List.mem_filter.mp hw).1

/-- The entity invariant holds after folding any trace. -/
theorem entitiesInv_fold {V : Type} (ops : List (EntityOp V))
    (acc : EntitiesState V × List Nat) (h : EntitiesInv acc.1 acc.2) :
    EntitiesInv (List.foldl entityTraceStep acc ops).1
      (List.foldl entityTraceStep acc ops).2 := by
  induction ops generalizing acc with
  | nil => exact h
  | cons op rest ih =>
    exact ih (entityTraceStep acc op) (entitiesInv_step op h)

/-- The entity invariant holds along every trace from startup. -/
theorem entitiesInv_run {V : Type} (ops : List (EntityOp V)) :
    EntitiesInv (runEntityOps ops) (entityIssued ops) :=
  entitiesInv_fold ops (initEntities V, []) (entitiesInv_init V)

/-- An identifier below the entity counter and absent from the store. -/
def entityAbsent {V : Type} (i : Nat) (s : EntitiesState V) : Prop :=
  i < s.nextId ∧ ∀ e ∈ s.entities, e.id ≠ i

/-- Absence below the counter is preserved by every entity request. -/
theorem entityAbsent_step {V : Type} {i : Nat} {s : EntitiesState V} (op : EntityOp V)
    (h : entityAbsent i s) : entityAbsent i (entityStep s op).1 := by
  obtain ⟨hlt, habs⟩ := h
  cases op with
  | create p =>
    cases hc : create_entity s p with
    | error e => exact ⟨by simpa [entityStep, hc] using hlt, by simpa [entityStep, hc] using habs⟩
    | ok r =>
      obtain ⟨v, s2⟩ := r
      obtain ⟨hv, hs2⟩ := create_entity_ok_elim hc
      subst hs2
      refine ⟨by simpa [entityStep, hc] using Nat.lt_succ_of_lt hlt, ?_⟩
      simp only [entityStep, hc]
      intro w hw
      rcases mem_dictInsertEntity hw with hw | hw
      · subst hw; exact fun he => absurd he.symm (Nat.ne_of_lt hlt)
      · exact habs w hw
  | update j p =>
    cases hc : update_entity s j p with
    | error e => exact ⟨by simpa [entityStep, hc] using hlt, by simpa [entityStep, hc] using habs⟩
    | ok r =>
      obtain ⟨v, s2⟩ := r
      obtain ⟨e, he, hv, hs2⟩ := update_entity_ok_elim hc
      subst hs2
      refine ⟨by simpa [entityStep, hc] using hlt, ?_⟩
      simp only [entityStep, hc]
      intro w hw
      rcases List.mem_map.mp hw with ⟨x, hx, hxw⟩
      by_cases hxi : (x.id == j) = true
      · subst hxw
        simp only [hxi, if_true]
        exact habs e (List.mem_of_find?_eq_some he)
      · subst hxw
        simp only [hxi, if_false]
        exact habs x hx
  | delete j =>
    cases hc : delete_entity s j with
    | error e => exact ⟨by simpa [entityStep, hc] using hlt, by simpa [entityStep, hc] using habs⟩
    | ok s2 =>
      obtain ⟨hany, hs2⟩ := delete_entity_ok_elim hc
      subst hs2
      refine ⟨by simpa [entityStep, hc] using hlt, ?_⟩
      simp only [entityStep, hc]
      intro w hw
      exact habs w (List.mem_filter.mp hw).1

/-- Absence below the entity counter is preserved by folding any trace. -/
theorem entityAbsent_fold {V : Type} {i : Nat} (ops : List (EntityOp V))
    (acc : EntitiesState V × List Nat) (h : entityAbsent i acc.1) :
    entityAbsent i (List.foldl entityTraceStep acc ops).1 := by
  induction ops generalizing acc with
  | nil => exact h
  | cons op rest ih =>
    exact ih (entityTraceStep acc op) (entityAbsent_step op h)

/-- After a successful delete of id `i` from a reachable user state, `i` is
below the counter and absent, and stays absent through any further trace. -/
theorem userDeleted_stays_absent (pre suf : List UserOp) (i : Nat)
    (hdel : (delete_user (runUserOps pre) i).isOk = true) :
    ∀ v ∈ list_users (runUserOps (pre ++ UserOp.delete i :: suf)), v.id ≠ i := by
  cases hc : delete_user (runUserOps pre) i with
  | error e => rw [hc] at hdel; simp [Except.isOk, Except.toBool] at hdel
  | ok s2 =>
    obtain ⟨hany, hs2⟩ := delete_user_ok_elim hc
    have hlt : i < (runUserOps pre).nextId := by
      rcases List.any_eq_true.mp hany with ⟨u, hu, hui⟩
      have heq : u.id = i := by simpa using hui
      have := (usersInv_run pre).1 u hu
      exact heq ▸ this
    have habs2 : userAbsent i s2 := by
      subst hs2
      refine ⟨hlt, ?_⟩
      intro w hw
      have := (List.mem_filter.mp hw).2
      simpa using this
    have hstep : (userTraceStep (runUserTrace pre) (UserOp.delete i)).1 = s2 := by
      simp [userTraceStep, userStep, runUserOps] at hc ⊢
      rw [hc]
    have habs : userAbsent i (runUserOps (pre ++ UserOp.delete i :: suf)) := by
      have hdecomp : runUserTrace (pre ++ UserOp.delete i :: suf)
          = List.foldl userTraceStep
              (userTraceStep (runUserTrace pre) (UserOp.delete i)) suf := by
        simp [runUserTrace, List.foldl_append]
      show userAbsent i (runUserTrace (pre ++ UserOp.delete i :: suf)).1
      rw [hdecomp]
      exact userAbsent_fold suf _ (hstep ▸ habs2)
    intro v hv
    rcases List.mem_map.mp hv with ⟨u, hu, huv⟩
    subst huv
    exact habs.2 u hu

/-- After a successful delete of id `j` from a reachable entity state, `j`
stays absent through any further trace. -/
theorem entityDeleted_stays_absent {V : Type} (pre suf : List (EntityOp V)) (j : Nat)
    (hdel : (delete_entity (runEntityOps pre) j).isOk = true) :
    ∀ e ∈ list_entities (runEntityOps (pre ++ EntityOp.delete j :: suf)), e.id ≠ j := by
  cases hc : delete_entity (runEntityOps pre) j with
  | error e => rw [hc] at hdel; simp [Except.isOk, Except.toBool] at hdel
  | ok s2 =>
    obtain ⟨hany, hs2⟩ := delete_entity_ok_elim hc
    have hlt : j < (runEntityOps pre).nextId := by
      rcases List.any_eq_true.mp hany with ⟨u, hu, hui⟩
      have heq : u.id = j := by simpa using hui
      have := (entitiesInv_run pre).1 u hu
      exact heq ▸ this
    have habs2 : entityAbsent j s2 := by
      subst hs2
      refine ⟨hlt, ?_⟩
      intro w hw
      have := (List.mem_filter.mp hw).2
      simpa using this
    have hstep : (entityTraceStep (runEntityTrace pre) (EntityOp.delete j)).1 = s2 := by
      simp [entityTraceStep, entityStep, runEntityOps] at hc ⊢
      rw [hc]
    have habs : entityAbsent j (runEntityOps (pre ++ EntityOp.delete j :: suf)) := by
      have hdecomp : runEntityTrace (pre ++ EntityOp.delete j :: suf)
          = List.foldl entityTraceStep
              (entityTraceStep (runEntityTrace pre) (EntityOp.delete j)) suf := by
        simp [runEntityTrace, List.foldl_append]
      show entityAbsent j (runEntityTrace (pre ++ EntityOp.delete j :: suf)).1
      rw [hdecomp]
      exact entityAbsent_fold suf _ (hstep ▸ habs2)
    intro v hv
    exact habs.2 v hv

/-- C1: for each registry separately, the identifiers issued by the
successful creates of any request trace are strictly increasing (so every
successful create returns an id strictly greater than every previously
issued one, and all issued ids are unique and never reused), and once an
id has been deleted it never appears in any later List result. -/
theorem c1_identifier_allocation (uops : List UserOp) (pre suf : List UserOp) (i : Nat)
    {V : Type} (eops epre esuf : List (EntityOp V)) (j : Nat)
    (hdel : (delete_user (runUserOps pre) i).isOk = true)
    (hedel : (delete_entity (runEntityOps epre) j).isOk = true) :
    List.Pairwise (· < ·) (userIssued uops) ∧
    List.Pairwise (· < ·) (entityIssued eops) ∧
    (∀ v ∈ list_users (runUserOps (pre ++ UserOp.delete i :: suf)), v.id ≠ i) ∧
    (∀ e ∈ list_entities (runEntityOps (epre ++ EntityOp.delete j :: esuf)), e.id ≠ j) :=
  ⟨(usersInv_run uops).2.2, (entitiesInv_run eops).2.2,
    userDeleted_stays_absent pre suf i hdel,
    entityDeleted_stays_absent epre esuf j hedel⟩

/-- Closed instance of C1: create two users, delete user 1, create another;
the deleted id 1 never reappears; same on the entity side. -/
theorem c1_identifier_allocation_witness :
    (delete_user (runUserOps [UserOp.create ⟨"a@x.com", none, "secret1"⟩]) 1).isOk = true ∧
    (delete_entity (V := Nat)
      (runEntityOps [EntityOp.create ⟨"Widget", none, none⟩]) 1).isOk = true ∧
    (List.Pairwise (· < ·) (userIssued [UserOp.create ⟨"a@x.com", none, "secret1"⟩,
        UserOp.create ⟨"b@x.com", none, "secret2"⟩]) ∧
      List.Pairwise (· < ·) (entityIssued (V := Nat) [EntityOp.create ⟨"Widget", none, none⟩,
        EntityOp.create ⟨"Gadget", none, none⟩]) ∧
      (∀ v ∈ list_users (runUserOps ([UserOp.create ⟨"a@x.com", none, "secret1"⟩] ++
        UserOp.delete 1 :: [UserOp.create ⟨"c@x.com", none, "secret3"⟩])), v.id ≠ 1) ∧
      (∀ e ∈ list_entities (runEntityOps (V := Nat) ([EntityOp.create ⟨"Widget", none, none⟩] ++
        EntityOp.delete 1 :: [EntityOp.create ⟨"Gadget", none, none⟩])), e.id ≠ 1)) :=
  ⟨by decide, by decide,
    c1_identifier_allocation
      [UserOp.create ⟨"a@x.com", none, "secret1"⟩, UserOp.create ⟨"b@x.com", none, "secret2"⟩]
      [UserOp.create ⟨"a@x.com", none, "secret1"⟩]
      [UserOp.create ⟨"c@x.com", none, "secret3"⟩] 1
      [EntityOp.create ⟨"Widget", none, none⟩, EntityOp.create ⟨"Gadget", none, none⟩]
      [EntityOp.create ⟨"Widget", none, none⟩]
      [EntityOp.create ⟨"Gadget", none, none⟩] 1
      (by decide) (by decide)⟩

/-- C2: a valid create whose email matches a stored user's email
case-insensitively always fails with Conflict, and the registry state —
records and counter alike — is exactly what it was before the call. -/
theorem c2_duplicate_email_conflict (s : UsersState) (p : UserCreate) (u : UserRec)
    (hv : validUserCreate p = true) (hu : u ∈ s.users)
    (hdup : strLower u.email = strLower p.email) :
    create_user s p = .error .conflict ∧ applyUserOp s (UserOp.create p) = s := by
  have htaken : emailTaken s.users p.email = true :=
    List.any_eq_true.mpr ⟨u, hu, by simpa using hdup⟩
  have hc : create_user s p = .error .conflict := by
    unfold create_user
    rw [hv, htaken]
    rfl
  exact ⟨hc, by simp [applyUserOp, userStep, hc]⟩

/-- Closed instance of C2: creating a second user with the same email in a
different case fails with Conflict and leaves the one-user registry
unchanged. -/
theorem c2_duplicate_email_conflict_witness :
    create_user ⟨[⟨1, "a@x.com", none, "secret1"⟩], 2⟩ ⟨"A@X.com", none, "other1"⟩
        = .error .conflict ∧
      applyUserOp ⟨[⟨1, "a@x.com", none, "secret1"⟩], 2⟩
        (UserOp.create ⟨"A@X.com", none, "other1"⟩) = ⟨[⟨1, "a@x.com", none, "secret1"⟩], 2⟩ :=
  c2_duplicate_email_conflict ⟨[⟨1, "a@x.com", none, "secret1"⟩], 2⟩
    ⟨"A@X.com", none, "other1"⟩ ⟨1, "a@x.com", none, "secret1"⟩
    (by decide) (by decide) (by decide)

/-- C3: Get, Update and Delete on an identifier absent from the registry all
fail with NotFound, on both registries, and each failed call leaves the
registry state (records and counter) exactly as it was. -/
theorem c3_notfound_leaves_state (s : UsersState) {V : Type} (t : EntitiesState V)
    (i j : Nat) (p : UserUpdate) (q : EntityUpdate V)
    (hp : validUserUpdate p = true)
    (hi : ∀ u ∈ s.users, u.id ≠ i) (hj : ∀ e ∈ t.entities, e.id ≠ j) :
    get_user s i = .error .notFound ∧
    update_user s i p = .error .notFound ∧
    delete_user s i = .error .notFound ∧
    applyUserOp s (UserOp.update i p) = s ∧
    applyUserOp s (UserOp.delete i) = s ∧
    get_entity t j = .error .notFound ∧
    update_entity t j q = .error .notFound ∧
    delete_entity t j = .error .notFound ∧
    applyEntityOp t (EntityOp.update j q) = t ∧
    applyEntityOp t (EntityOp.delete j) = t := by
  have hfind : s.users.find? (fun u => u.id == i) = none :=
    List.find?_eq_none.mpr (fun u hu => by simpa using hi u hu)
  have hany : s.users.any (fun u => u.id == i) = false :=
    List.any_eq_false.mpr (fun u hu => by simpa using hi u hu)
  have hefind : t.entities.find? (fun e => e.id == j) = none :=
    List.find?_eq_none.mpr (fun e he => by simpa using hj e he)
  have heany : t.entities.any (fun e => e.id == j) = false :=
    List.any_eq_false.mpr (fun e he => by simpa using hj e he)
  have h1 : get_user s i = .error .notFound := by
    unfold get_user; rw [hfind]
  have h2 : update_user s i p = .error .notFound := by
    unfold update_user; rw [hp, hfind]; rfl
  have h3 : delete_user s i = .error .notFound := by
    unfold delete_user; rw [hany]; rfl
  have h4 : get_entity t j = .error .notFound := by
    unfold get_entity; rw [hefind]
  have h5 : update_entity t j q = .error .notFound := by
    unfold update_entity; rw [hefind]
  have h6 : delete_entity t j = .error .notFound := by
    unfold delete_entity; rw [heany]; rfl
  refine ⟨h1, h2, h3, ?_, ?_, h4, h5, h6, ?_, ?_⟩
  · simp [applyUserOp, userStep, h2]
  · simp [applyUserOp, userStep, h3]
  · simp [applyEntityOp, entityStep, h5]
  · simp [applyEntityOp, entityStep, h6]

/-- Closed instance of C3: id 7 is absent from both one-record registries, so
all six lookups fail with NotFound and both states are untouched. -/
theorem c3_notfound_leaves_state_witness :
    get_user ⟨[⟨1, "a@x.com", none, "secret1"⟩], 2⟩ 7 = .error .notFound ∧
    update_user ⟨[⟨1, "a@x.com", none, "secret1"⟩], 2⟩ 7 ⟨some "N", none⟩ = .error .notFound ∧
    delete_user ⟨[⟨1, "a@x.com", none, "secret1"⟩], 2⟩ 7 = .error .notFound ∧
    applyUserOp ⟨[⟨1, "a@x.com", none, "secret1"⟩], 2⟩ (UserOp.update 7 ⟨some "N", none⟩)
      = ⟨[⟨1, "a@x.com", none, "secret1"⟩], 2⟩ ∧
    applyUserOp ⟨[⟨1, "a@x.com", none, "secret1"⟩], 2⟩ (UserOp.delete 7)
      = ⟨[⟨1, "a@x.com", none, "secret1"⟩], 2⟩ ∧
    get_entity (V := Nat) ⟨[⟨1, "Widget", none, []⟩], 2⟩ 7 = .error .notFound ∧
    update_entity (V := Nat) ⟨[⟨1, "Widget", none, []⟩], 2⟩ 7 ⟨none, none, none⟩
      = .error .notFound ∧
    delete_entity (V := Nat) ⟨[⟨1, "Widget", none, []⟩], 2⟩ 7 = .error .notFound ∧
    applyEntityOp (V := Nat) ⟨[⟨1, "Widget", none, []⟩], 2⟩ (EntityOp.update 7 ⟨none, none, none⟩)
      = ⟨[⟨1, "Widget", none, []⟩], 2⟩ ∧
    applyEntityOp (V := Nat) ⟨[⟨1, "Widget", none, []⟩], 2⟩ (EntityOp.delete 7)
      = ⟨[⟨1, "Widget", none, []⟩], 2⟩ :=
  c3_notfound_leaves_state ⟨[⟨1, "a@x.com", none, "secret1"⟩], 2⟩
    ⟨[⟨1, "Widget", none, []⟩], 2⟩ 7 7 ⟨some "N", none⟩ ⟨none, none, none⟩
    (by decide) (by decide) (by decide)

/-- Replacing the record with a given id keeps it the first hit of `find?`,
provided the replacement keeps the id. -/
theorem find?_map_update {V : Type} (l : List (EntityRec V)) (j : Nat)
    (e e2 : EntityRec V) (he : l.find? (fun w => w.id == j) = some e)
    (hid : e2.id = e.id) :
    (l.map (fun w => if w.id == j then e2 else w)).find? (fun w => w.id == j)
      = some e2 := by
  induction l with
  | nil => simp at he
  | cons x xs ih =>
    by_cases hx : (x.id == j) = true
    · have hex : e = x := by
        rw [List.find?_cons, hx] at he
        exact (Option.some.injEq _ _).mp he.symm
      have h2 : (e2.id == j) = true := by
        subst hex; simpa [hid] using hx
      simp only [List.map_cons, hx, if_true, List.find?_cons, h2]
    · have hrest : xs.find? (fun w => w.id == j) = some e := by
        rw [List.find?_cons] at he
        simpa [hx] using he
      have hxb : (x.id == j) = false := by simpa using hx
      simp only [List.map_cons, hxb, Bool.false_eq_true, if_false, List.find?_cons]
      exact ih hrest

/-- C4: an entity update that provides a metadata map replaces the stored map
wholesale — the returned record and the stored record both carry exactly
the provided map, whatever was stored before. -/
theorem c4_metadata_replaced_wholesale {V : Type} (t : EntitiesState V) (j : Nat)
    (q : EntityUpdate V) (m : List (String × V)) (e : EntityRec V)
    (hm : q.metadata = some m)
    (he : t.entities.find? (fun w => w.id == j) = some e) :
    ∃ t2, update_entity t j q = .ok (applyEntityUpdate e q, t2) ∧
      (applyEntityUpdate e q).metadata = m ∧
      t2.entities.find? (fun w => w.id == j) = some (applyEntityUpdate e q) := by
  refine ⟨⟨t.entities.map (fun w => if w.id == j then applyEntityUpdate e q else w),
    t.nextId⟩, ?_, ?_, ?_⟩
  · unfold update_entity
    rw [he]
  · simp [applyEntityUpdate, hm]
  · exact find?_map_update t.entities j e (applyEntityUpdate e q) he rfl

/-- Closed instance of C4: updating a record whose metadata maps key a to 1
with a map sending b to 2 stores and returns exactly the latter map. -/
theorem c4_metadata_replaced_wholesale_witness :
    ∃ t2, update_entity (V := Nat) ⟨[⟨1, "Widget", none, [("a", 1)]⟩], 2⟩ 1
        ⟨none, none, some [("b", 2)]⟩
        = .ok (applyEntityUpdate ⟨1, "Widget", none, [("a", 1)]⟩
          ⟨none, none, some [("b", 2)]⟩, t2) ∧
      (applyEntityUpdate (V := Nat) ⟨1, "Widget", none, [("a", 1)]⟩
        ⟨none, none, some [("b", 2)]⟩).metadata = [("b", 2)] ∧
      t2.entities.find? (fun w => w.id == 1)
        = some (applyEntityUpdate ⟨1, "Widget", none, [("a", 1)]⟩ ⟨none, none, some [("b", 2)]⟩) :=
  c4_metadata_replaced_wholesale ⟨[⟨1, "Widget", none, [("a", 1)]⟩], 2⟩ 1
    ⟨none, none, some [("b", 2)]⟩ [("b", 2)] ⟨1, "Widget", none, [("a", 1)]⟩
    (by decide) (by decide)

/-- C5 evaluation at the failing input: the source's `EntityUpdate` puts no
minimum length on the name, so updating entity 1 (named Widget) with an
empty name succeeds at the registry level and stores a record whose name
is the empty string — the non-empty-name invariant claimed by the spec
(and demanded by the source's own `Entity` response model) is broken. -/
theorem c5_update_stores_empty_name :
    update_entity (V := Nat) ⟨[⟨1, "Widget", none, []⟩], 2⟩ 1 ⟨some "", none, none⟩
      = .ok (⟨1, "", none, []⟩, ⟨[⟨1, "", none, []⟩], 2⟩) := rfl

/-- Two user-registry states that agree on everything a client can see:
same counter and same sequence of public views — i.e. they differ at most
in stored passwords. -/
def samePublic (s t : UsersState) : Prop :=
  s.users.map userView = t.users.map userView ∧ s.nextId = t.nextId

/-- Stores with equal public views yield `find?` results with equal public
views (the id used for lookup is part of the view). -/
theorem find?_userView_eq {l₁ l₂ : List UserRec}
    (h : l₁.map userView = l₂.map userView) (i : Nat) :
    Option.map userView (l₁.find? (fun u => u.id == i))
      = Option.map userView (l₂.find? (fun u => u.id == i)) := by
  induction l₁ generalizing l₂ with
  | nil =>
    have : l₂ = [] := by simpa using (List.map_eq_nil_iff.mp h.symm)
    subst this; rfl
  | cons x xs ih =>
    cases l₂ with
    | nil => simp at h
    | cons y ys =>
      simp only [List.map_cons, List.cons.injEq] at h
      obtain ⟨hxy, hxs⟩ := h
      have hid : x.id = y.id := congrArg UserView.id hxy
      by_cases hx : (x.id == i) = true
      · have hy : (y.id == i) = true := by rw [← hid]; exact hx
        simp only [List.find?_cons, hx, hy, Option.map_some]
        exact congrArg some hxy
      · have hy : (y.id == i) = false := by
          rw [← hid]; simpa using hx
        have hx2 : (x.id == i) = false := by simpa using hx
        simp only [List.find?_cons, hx2, hy]
        exact ih hxs

/-- Stores with equal public views agree on the duplicate-email scan (the
email is part of the view). -/
theorem emailTaken_eq {l₁ l₂ : List UserRec}
    (h : l₁.map userView = l₂.map userView) (em : String) :
    emailTaken l₁ em = emailTaken l₂ em := by
  induction l₁ generalizing l₂ with
  | nil =>
    have : l₂ = [] := by simpa using (List.map_eq_nil_iff.mp h.symm)
    subst this; rfl
  | cons x xs ih =>
    cases l₂ with
    | nil => simp at h
    | cons y ys =>
      simp only [List.map_cons, List.cons.injEq] at h
      obtain ⟨hxy, hxs⟩ := h
      have hem : x.email = y.email := congrArg UserView.email hxy
      simp only [emailTaken, List.any_cons, hem]
      have := ih hxs
      simp only [emailTaken] at this
      rw [this]

/-- C6: no user operation leaks the stored password.  The response type
`UserView` has only id, email and full_name; equivalently, two states
that differ only in stored passwords (`samePublic`) are indistinguishable
through List, Get, and the views returned by Create and Update. -/
theorem c6_password_never_returned (s t : UsersState) (i : Nat)
    (p : UserCreate) (q : UserUpdate) (h : samePublic s t) :
    list_users s = list_users t ∧
    get_user s i = get_user t i ∧
    Except.map Prod.fst (create_user s p) = Except.map Prod.fst (create_user t p) ∧
    Except.map Prod.fst (update_user s i q) = Except.map Prod.fst (update_user t i q) := by
  obtain ⟨hviews, hnext⟩ := h
  refine ⟨hviews, ?_, ?_, ?_⟩
  · have hf := find?_userView_eq hviews i
    unfold get_user
    cases hs : s.users.find? (fun u => u.id == i) with
    | none =>
      cases ht : t.users.find? (fun u => u.id == i) with
      | none => rfl
      | some v => rw [hs, ht] at hf; simp at hf
    | some u =>
      cases ht : t.users.find? (fun u => u.id == i) with
      | none => rw [hs, ht] at hf; simp at hf
      | some v =>
        rw [hs, ht] at hf
        have hf2 : userView u = userView v := by simpa using hf
        show Except.ok (userView u) = Except.ok (userView v)
        rw [hf2]
  · unfold create_user
    by_cases hv : validUserCreate p = true
    · rw [hv, emailTaken_eq hviews p.email]
      by_cases htk : emailTaken t.users p.email = true
      · rw [htk]; rfl
      · have htk2 : emailTaken t.users p.email = false := by simpa using htk
        rw [htk2, hnext]
        rfl
    · have hv2 : validUserCreate p = false := by simpa using hv
      rw [hv2]; rfl
  · have hf := find?_userView_eq hviews i
    unfold update_user
    by_cases hv : validUserUpdate q = true
    · rw [hv]
      cases hs : s.users.find? (fun u => u.id == i) with
      | none =>
        cases ht : t.users.find? (fun u => u.id == i) with
        | none => rfl
        | some v => rw [hs, ht] at hf; simp at hf
      | some u =>
        cases ht : t.users.find? (fun u => u.id == i) with
        | none => rw [hs, ht] at hf; simp at hf
        | some v =>
          rw [hs, ht] at hf
          have hf2 : userView u = userView v := by simpa using hf
          have h1 : u.id = v.id := congrArg UserView.id hf2
          have h2 : u.email = v.email := congrArg UserView.email hf2
          have h3 : u.full_name = v.full_name := congrArg UserView.full_name hf2
          simp only [Except.map]
          have : userView (applyUserUpdate u q) = userView (applyUserUpdate v q) := by
            simp [userView, applyUserUpdate, h1, h2, h3]
          rw [this]
          rfl
    · have hv2 : validUserUpdate q = false := by simpa using hv
      rw [hv2]; rfl

/-- Closed instance of C6: two one-user states differing only in the stored
password are indistinguishable through every public output. -/
theorem c6_password_never_returned_witness :
    list_users ⟨[⟨1, "a@x.com", none, "secret1"⟩], 2⟩
        = list_users ⟨[⟨1, "a@x.com", none, "hunter2"⟩], 2⟩ ∧
    get_user ⟨[⟨1, "a@x.com", none, "secret1"⟩], 2⟩ 1
        = get_user ⟨[⟨1, "a@x.com", none, "hunter2"⟩], 2⟩ 1 ∧
    Except.map Prod.fst (create_user ⟨[⟨1, "a@x.com", none, "secret1"⟩], 2⟩
        ⟨"b@x.com", none, "secret2"⟩)
      = Except.map Prod.fst (create_user ⟨[⟨1, "a@x.com", none, "hunter2"⟩], 2⟩
        ⟨"b@x.com", none, "secret2"⟩) ∧
    Except.map Prod.fst (update_user ⟨[⟨1, "a@x.com", none, "secret1"⟩], 2⟩ 1
        ⟨some "N", none⟩)
      = Except.map Prod.fst (update_user ⟨[⟨1, "a@x.com", none, "hunter2"⟩], 2⟩ 1
        ⟨some "N", none⟩) :=
  c6_password_never_returned ⟨[⟨1, "a@x.com", none, "secret1"⟩], 2⟩
    ⟨[⟨1, "a@x.com", none, "hunter2"⟩], 2⟩ 1 ⟨"b@x.com", none, "secret2"⟩
    ⟨some "N", none⟩ ⟨by decide, by decide⟩

/-- C7: the password contract.  A create whose password is shorter than 6
characters fails with ValidationError and changes nothing; an update with
password omitted succeeds (on an existing user) and leaves the stored
password unchanged; an update whose password is present but shorter than
6 characters — the empty string included — fails with ValidationError and
changes nothing. -/
theorem c7_password_length_contract (s : UsersState) (p : UserCreate)
    (q1 q2 : UserUpdate) (i : Nat) (u : UserRec) (pw : String)
    (hshort : p.password.length < 6)
    (hq1 : q1.password = none)
    (hu : s.users.find? (fun w => w.id == i) = some u)
    (hq2 : q2.password = some pw) (hpw : pw.length < 6) :
    create_user s p = .error .validationError ∧
    applyUserOp s (UserOp.create p) = s ∧
    (∃ s2, update_user s i q1 = .ok (userView (applyUserUpdate u q1), s2) ∧
      ∀ w ∈ s2.users, w.id = i → w.password = u.password) ∧
    update_user s i q2 = .error .validationError ∧
    applyUserOp s (UserOp.update i q2) = s := by
  have hvc : validUserCreate p = false := by
    simp only [validUserCreate, decide_eq_false_iff_not]
    omega
  have hc : create_user s p = .error .validationError := by
    unfold create_user; rw [hvc]; rfl
  have hv1 : validUserUpdate q1 = true := by
    simp [validUserUpdate, hq1]
  have hv2 : validUserUpdate q2 = false := by
    simp only [validUserUpdate, hq2]
    simp only [decide_eq_false_iff_not]
    omega
  have hupd2 : update_user s i q2 = .error .validationError := by
    unfold update_user; rw [hv2]; rfl
  refine ⟨hc, by simp [applyUserOp, userStep, hc], ?_, hupd2,
    by simp [applyUserOp, userStep, hupd2]⟩
  refine ⟨⟨s.users.map (fun w => if w.id == i then applyUserUpdate u q1 else w),
    s.nextId⟩, ?_, ?_⟩
  · unfold update_user
    rw [hv1, hu]
    rfl
  · intro w hw hwi
    rcases List.mem_map.mp hw with ⟨x, hx, hxw⟩
    by_cases hxi : (x.id == i) = true
    · rw [if_pos hxi] at hxw
      subst hxw
      simp [applyUserUpdate, hq1]
    · rw [if_neg hxi] at hxw
      subst hxw
      exact absurd hwi (by simpa using hxi)

/-- Closed instance of C7: a 5-character password is rejected at creation
and at update, and an update without a password keeps the stored one. -/
theorem c7_password_length_contract_witness :
    create_user ⟨[⟨1, "a@x.com", none, "secret1"⟩], 2⟩ ⟨"b@x.com", none, "short"⟩
        = .error .validationError ∧
    applyUserOp ⟨[⟨1, "a@x.com", none, "secret1"⟩], 2⟩
        (UserOp.create ⟨"b@x.com", none, "short"⟩) = ⟨[⟨1, "a@x.com", none, "secret1"⟩], 2⟩ ∧
    (∃ s2, update_user ⟨[⟨1, "a@x.com", none, "secret1"⟩], 2⟩ 1 ⟨some "N", none⟩
        = .ok (userView (applyUserUpdate ⟨1, "a@x.com", none, "secret1"⟩ ⟨some "N", none⟩), s2) ∧
      ∀ w ∈ s2.users, w.id = 1 → w.password = UserRec.password ⟨1, "a@x.com", none, "secret1"⟩) ∧
    update_user ⟨[⟨1, "a@x.com", none, "secret1"⟩], 2⟩ 1 ⟨none, some "abc"⟩
        = .error .validationError ∧
    applyUserOp ⟨[⟨1, "a@x.com", none, "secret1"⟩], 2⟩ (UserOp.update 1 ⟨none, some "abc"⟩)
        = ⟨[⟨1, "a@x.com", none, "secret1"⟩], 2⟩ :=
  c7_password_length_contract ⟨[⟨1, "a@x.com", none, "secret1"⟩], 2⟩
    ⟨"b@x.com", none, "short"⟩ ⟨some "N", none⟩ ⟨none, some "abc"⟩ 1
    ⟨1, "a@x.com", none, "secret1"⟩ "abc"
    (by decide) (by decide) (by decide) (by decide) (by decide)

/-- C8: on both registries, an update providing none of its optional fields
is a no-op on an existing record: the call succeeds, returns the view of
the unchanged record, and the state afterwards is literally the state
before (given the dict invariant that stored ids are distinct). -/
theorem c8_empty_update_noop (s : UsersState) {V : Type} (t : EntitiesState V)
    (i j : Nat) (u : UserRec) (e : EntityRec V)
    (hu : s.users.find? (fun w => w.id == i) = some u)
    (he : t.entities.find? (fun w => w.id == j) = some e)
    (hnd : (s.users.map (fun w => w.id)).Nodup)
    (hne : (t.entities.map (fun w => w.id)).Nodup) :
    update_user s i ⟨none, none⟩ = .ok (userView u, s) ∧
    update_entity t j ⟨none, none, none⟩ = .ok (e, t) := by
  have huid : u.id = i := by simpa using List.find?_some hu
  have heid : e.id = j := by simpa using List.find?_some he
  have hufix : applyUserUpdate u ⟨none, none⟩ = u := rfl
  have hefix : applyEntityUpdate e ⟨none, none, none⟩ = e := rfl
  constructor
  · unfold update_user
    rw [show validUserUpdate ⟨none, none⟩ = true from rfl, hu]
    have hmap : s.users.map (fun v => if v.id == i then u else v)
        = s.users := by
      have : ∀ v ∈ s.users,
          (if v.id == i then u else v) = id v := by
        intro v hv
        by_cases hvi : (v.id == i) = true
        · have hveq : v = u :=
            List.inj_on_of_nodup_map hnd hv (List.mem_of_find?_eq_some hu)
              (by rw [huid]; simpa using hvi)
          simp [hvi, hveq]
        · simp [hvi]
      rw [List.map_congr_left this, List.map_id]
    show Except.ok (userView (applyUserUpdate u ⟨none, none⟩),
        (⟨s.users.map (fun v => if v.id == i then applyUserUpdate u ⟨none, none⟩ else v),
          s.nextId⟩ : UsersState))
      = Except.ok (userView u, s)
    rw [hufix, hmap]
  · unfold update_entity
    rw [he]
    have hmap : t.entities.map (fun v => if v.id == j then e else v)
        = t.entities := by
      have : ∀ v ∈ t.entities,
          (if v.id == j then e else v) = id v := by
        intro v hv
        by_cases hvi : (v.id == j) = true
        · have hveq : v = e :=
            List.inj_on_of_nodup_map hne hv (List.mem_of_find?_eq_some he)
              (by rw [heid]; simpa using hvi)
          simp [hvi, hveq]
        · simp [hvi]
      rw [List.map_congr_left this, List.map_id]
    show Except.ok (applyEntityUpdate e ⟨none, none, none⟩,
        (⟨t.entities.map (fun v => if v.id == j then applyEntityUpdate e ⟨none, none, none⟩ else v),
          t.nextId⟩ : EntitiesState V))
      = Except.ok (e, t)
    rw [hefix, hmap]

/-- Closed instance of C8: the all-omitted update on one-record registries
returns the stored record and leaves both states untouched. -/
theorem c8_empty_update_noop_witness :
    update_user ⟨[⟨1, "a@x.com", some "Ada", "secret1"⟩], 2⟩ 1 ⟨none, none⟩
        = .ok (userView ⟨1, "a@x.com", some "Ada", "secret1"⟩,
          ⟨[⟨1, "a@x.com", some "Ada", "secret1"⟩], 2⟩) ∧
    update_entity (V := Nat) ⟨[⟨1, "Widget", none, [("color", 3)]⟩], 2⟩ 1 ⟨none, none, none⟩
        = .ok (⟨1, "Widget", none, [("color", 3)]⟩, ⟨[⟨1, "Widget", none, [("color", 3)]⟩], 2⟩) :=
  c8_empty_update_noop ⟨[⟨1, "a@x.com", some "Ada", "secret1"⟩], 2⟩
    ⟨[⟨1, "Widget", none, [("color", 3)]⟩], 2⟩ 1 1
    ⟨1, "a@x.com", some "Ada", "secret1"⟩ ⟨1, "Widget", none, [("color", 3)]⟩
    (by decide) (by decide) (by decide) (by decide)

/-- C9: a user update touches at most the target's full_name and password.
The call returns the updated record's view; the updated record keeps the
stored id and email (email is immutable after creation); the counter is
unchanged; every record with a different id is untouched, in both
directions; and every stored record with the target id is exactly the
updated record. -/
theorem c9_update_frame (s : UsersState) (i : Nat) (p : UserUpdate) (u : UserRec)
    (hp : validUserUpdate p = true)
    (hu : s.users.find? (fun w => w.id == i) = some u) :
    ∃ s2, update_user s i p = .ok (userView (applyUserUpdate u p), s2) ∧
      s2.nextId = s.nextId ∧
      (applyUserUpdate u p).id = u.id ∧
      (applyUserUpdate u p).email = u.email ∧
      (∀ v ∈ s.users, v.id ≠ i → v ∈ s2.users) ∧
      (∀ w ∈ s2.users, w.id ≠ i → w ∈ s.users) ∧
      (∀ w ∈ s2.users, w.id = i → w = applyUserUpdate u p) := by
  have huid : u.id = i := by simpa using List.find?_some hu
  refine ⟨⟨s.users.map (fun w => if w.id == i then applyUserUpdate u p else w), s.nextId⟩,
    ?_, rfl, rfl, rfl, ?_, ?_, ?_⟩
  · unfold update_user
    rw [hp, hu]
    rfl
  · intro v hv hvi
    have : (v.id == i) = false := by simpa using hvi
    refine List.mem_map.mpr ⟨v, hv, ?_⟩
    rw [this]
    simp
  · intro w hw hwi
    rcases List.mem_map.mp hw with ⟨x, hx, hxw⟩
    by_cases hxi : (x.id == i) = true
    · rw [if_pos hxi] at hxw
      subst hxw
      exact absurd huid hwi
    · rw [if_neg hxi] at hxw
      subst hxw
      exact hx
  · intro w hw hwi
    rcases List.mem_map.mp hw with ⟨x, hx, hxw⟩
    by_cases hxi : (x.id == i) = true
    · rw [if_pos hxi] at hxw
      exact hxw.symm
    · rw [if_neg hxi] at hxw
      subst hxw
      exact absurd hwi (by simpa using hxi)

/-- Closed instance of C9: updating user 1's full_name in a two-user registry
keeps id, email, user 2's record and the counter unchanged. -/
theorem c9_update_frame_witness :
    ∃ s2, update_user ⟨[⟨1, "a@x.com", none, "secret1"⟩, ⟨2, "b@x.com", none, "secret2"⟩], 3⟩ 1
        ⟨some "Ada", none⟩
        = .ok (userView (applyUserUpdate ⟨1, "a@x.com", none, "secret1"⟩ ⟨some "Ada", none⟩), s2) ∧
      s2.nextId = 3 ∧
      (applyUserUpdate ⟨1, "a@x.com", none, "secret1"⟩ ⟨some "Ada", none⟩).id = 1 ∧
      (applyUserUpdate ⟨1, "a@x.com", none, "secret1"⟩ ⟨some "Ada", none⟩).email = "a@x.com" ∧
      (∀ v ∈ [⟨1, "a@x.com", none, "secret1"⟩, (⟨2, "b@x.com", none, "secret2"⟩ : UserRec)],
        v.id ≠ 1 → v ∈ s2.users) ∧
      (∀ w ∈ s2.users, w.id ≠ 1 →
        w ∈ [⟨1, "a@x.com", none, "secret1"⟩, (⟨2, "b@x.com", none, "secret2"⟩ : UserRec)]) ∧
      (∀ w ∈ s2.users, w.id = 1 →
        w = applyUserUpdate ⟨1, "a@x.com", none, "secret1"⟩ ⟨some "Ada", none⟩) :=
  c9_update_frame ⟨[⟨1, "a@x.com", none, "secret1"⟩, ⟨2, "b@x.com", none, "secret2"⟩], 3⟩ 1
    ⟨some "Ada", none⟩ ⟨1, "a@x.com", none, "secret1"⟩ (by decide) (by decide)

/-- C10: an entity create whose metadata is absent (pydantic default: empty
dict) or explicitly null stores and returns exactly the empty map — the
record is appended with empty metadata (given a valid name and the dict
invariant that the counter is fresh, which holds in every reachable
state). -/
theorem c10_metadata_defaults_empty {V : Type} (t : EntitiesState V) (p : EntityCreate V)
    (hm : p.metadata = none ∨ p.metadata = some [])
    (hv : validEntityCreate p = true)
    (hfresh : ∀ e ∈ t.entities, e.id ≠ t.nextId) :
    create_entity t p = .ok (⟨t.nextId, p.name, p.description, []⟩,
      ⟨t.entities ++ [⟨t.nextId, p.name, p.description, []⟩], t.nextId + 1⟩) := by
  have hmeta : metaOrEmpty p.metadata = [] := by
    rcases hm with hm | hm <;> rw [hm] <;> rfl
  have hany : t.entities.any (fun e => e.id == t.nextId) = false :=
    List.any_eq_false.mpr (fun e he => by simpa using hfresh e he)
  unfold create_entity
  rw [hv]
  simp only [if_true]
  unfold dictInsertEntity
  rw [hmeta, hany]
  rfl

/-- Closed instance of C10: creating an entity with explicitly null metadata
yields a record with the empty map. -/
theorem c10_metadata_defaults_empty_witness :
    create_entity (V := Nat) ⟨[], 1⟩ ⟨"Widget", none, none⟩
      = .ok (⟨1, "Widget", none, []⟩, ⟨[⟨1, "Widget", none, []⟩], 2⟩) :=
  c10_metadata_defaults_empty ⟨[], 1⟩ ⟨"Widget", none, none⟩
    (Or.inl rfl) (by decide) (by decide)
